import Mathlib

/-!
# Burstfire simulation core: a verification development

Shallow embedding of the Burstfire multiplayer FPS simulation core:

* the binary snapshot encoder (`GameServer::buildSnapshot`, server/addon/game_server.cc)
  and the client snapshot decoder (`NetClient.parseSnapshot`, client/src/net.ts);
* the input-command boundary decoder (`PushInput`, server/addon/addon.cc);
* the bounded single-producer ring buffer (`InputRing`, server/addon/game_server.cc);
* the combat resolver (`GameServer::processInput` fire branch, game_server.cc, and
  the `GameServer::updateSpiders` attack branch, game_server_ai.cc);
* the movement integrator and collision resolver (`GameServer::integratePlayer`,
  `resolveWalls`, `resolvePlatforms`) and the client predictor
  (`Predictor.applyCommand`, client/src/predict.ts).

Modelling conventions:

* bytes are natural numbers below 256; multi-byte fields are little-endian,
  exactly as the C++ `memcpy` writes and the JS `DataView` reads on a
  little-endian host;
* 32-bit IEEE-754 floats that merely travel across the wire are carried as
  their 32-bit bit patterns (both sides only move bytes, so byte-exact
  round-tripping is a statement about bit patterns);
* floats that take part in arithmetic (movement, collision, damage) are
  modelled as elements of a linear ordered field; `std::sqrt` / `Math.hypot`
  and `std::sin` / `std::cos` are abstracted into a `FloatOps` record,
  instantiated with `Real.sqrt` / `Real.sin` / `Real.cos` on `ℝ`;
* `uint32_t` tick counters are naturals; the tick subtraction
  `currentTick - lastFireTick` is modelled by truncated `Nat` subtraction,
  which agrees with the `uint32_t` subtraction whenever
  `lastFireTick ≤ currentTick` (an invariant of the server, which only ever
  stores past tick values in `lastFireTick`);
* the random pellet jitter together with the ray-sphere test of
  `GameServer::raycastHit` is abstracted into a per-pellet oracle giving the
  optional hit distance; the damage arithmetic downstream of that oracle is
  translated verbatim;
* the random spawn-point search of `GameServer::respawnPlayer` is abstracted
  into a spawn-position oracle; all deterministic field resets of
  `respawnPlayer` are translated verbatim.
-/

namespace Burstfire

/-! ## Byte-level helpers -/

/-- Byte `i` of a byte list, 0 beyond the end (indices are always in range at
every use site, mirroring the bounds checks of the C++/JS code). -/
def byteAt : List ℕ → ℕ → ℕ
  | [], _ => 0
  | b :: _, 0 => b
  | _ :: t, n + 1 => byteAt t n

/-- Little-endian bytes of a 16-bit value. -/
def le16 (n : ℕ) : List ℕ := [n % 256, n / 256 % 256]

/-- Little-endian bytes of a 32-bit value. -/
def le32 (n : ℕ) : List ℕ :=
  [n % 256, n / 256 % 256, n / 65536 % 256, n / 16777216 % 256]

/-- Read a little-endian `u16` from two bytes (`DataView.getUint16(·, true)`). -/
def rd16 (b0 b1 : ℕ) : ℕ := b0 + 256 * b1

/-- Read a little-endian `u32` from four bytes (`DataView.getUint32(·, true)`). -/
def rd32 (b0 b1 b2 b3 : ℕ) : ℕ := b0 + 256 * b1 + 65536 * b2 + 16777216 * b3

/-- `DataView.getUint32(i, true)` on a byte list. -/
def getU32 (l : List ℕ) (i : ℕ) : ℕ :=
  rd32 (byteAt l i) (byteAt l (i + 1)) (byteAt l (i + 2)) (byteAt l (i + 3))

/-- `DataView.getUint16(i, true)` on a byte list. -/
def getU16 (l : List ℕ) (i : ℕ) : ℕ := rd16 (byteAt l i) (byteAt l (i + 1))

/-- `DataView.getInt16(i, true)` on a byte list: the unsigned 16-bit value
reinterpreted as two's complement. -/
def getI16 (l : List ℕ) (i : ℕ) : ℤ :=
  if 32768 ≤ getU16 l i then (getU16 l i : ℤ) - 65536 else (getU16 l i : ℤ)

/-- The low 16 bits of an `int32_t`, as written by
`int16_t health = static_cast<int16_t>(p.health)` followed by a 2-byte copy. -/
def toLow16 (h : ℤ) : ℕ := (h % 65536).toNat

/-! ## InputRing (server/addon/game_server.cc, lines 63-85)

A bounded single-producer/single-consumer ring of `kSize = 4096` slots.
`head_`/`tail_` are modelled as plain naturals (the atomics only order the
accesses between the two threads; each individual `push`/`pop` is the
sequential function below).  The backing `std::array` is modelled as a
function from indices to slots. -/

def ringSize : ℕ := 4096

structure InputRing (α : Type) where
  buffer : ℕ → α
  head : ℕ
  tail : ℕ

namespace InputRing

/-- `InputRing::push`: returns the updated ring and the `bool` result.
When `(head + 1) % kSize == tail` the ring is full: the packet is dropped and
the ring is untouched. -/
def push (r : InputRing α) (x : α) : InputRing α × Bool :=
  if (r.head + 1) % ringSize = r.tail then (r, false)
  else ({ buffer := fun j => if j = r.head then x else r.buffer j,
          head := (r.head + 1) % ringSize, tail := r.tail }, true)

/-- `InputRing::pop`: returns the updated ring and the popped packet, if any. -/
def pop (r : InputRing α) : InputRing α × Option α :=
  if r.tail = r.head then (r, none)
  else ({ r with tail := (r.tail + 1) % ringSize }, some (r.buffer r.tail))

/-- Well-formedness: both cursors stay below `kSize` (established by `% kSize`
on every update and by zero-initialisation). -/
def wf (r : InputRing α) : Prop := r.head < ringSize ∧ r.tail < ringSize

/-- Number of queued packets. -/
def count (r : InputRing α) : ℕ := (r.head + ringSize - r.tail) % ringSize

/-- The ring is full exactly when a push would collide with `tail`. -/
def isFull (r : InputRing α) : Prop := (r.head + 1) % ringSize = r.tail

instance (r : InputRing α) : Decidable (isFull r) := by unfold isFull; infer_instance

/-- Abstraction: the queued packets, oldest first. -/
def toList (r : InputRing α) : List α :=
  (List.range (count r)).map fun i => r.buffer ((r.tail + i) % ringSize)

end InputRing

/-! ## Input command boundary decoder (server/addon/addon.cc, `PushInput`)

The N-API binding checks `len < 23` and rejects before anything touches the
queue; otherwise it decodes the fixed little-endian layout and pushes the
packet onto the ring.  Float fields are carried as their 32-bit patterns. -/

structure InputPacketWire where
  playerId : ℕ
  seq : ℕ
  moveXBits : ℕ
  moveZBits : ℕ
  yawBits : ℕ
  pitchBits : ℕ
  fire : Bool
  weapon : ℕ
  jump : Bool
deriving DecidableEq, Inhabited

/-- The decoding part of `PushInput` (addon.cc lines 50-81): `none` when the
payload is undersized, otherwise the decoded packet.  The entity id arrives
out-of-band as the first N-API argument. -/
def decodeInput (playerId : ℕ) (data : List ℕ) : Option InputPacketWire :=
  if data.length < 23 then none
  else some
    { playerId := playerId
      seq := getU32 data 0
      moveXBits := getU32 data 4
      moveZBits := getU32 data 8
      yawBits := getU32 data 12
      pitchBits := getU32 data 16
      fire := byteAt data 20 ≠ 0
      weapon := byteAt data 21
      jump := if 22 < data.length then byteAt data 22 ≠ 0 else false }

/-- `PushInput` composed with `GameServer::pushInput`: a rejected payload
returns `false` and never reaches the ring. -/
def pushInputBoundary (r : InputRing InputPacketWire) (playerId : ℕ) (data : List ℕ) :
    InputRing InputPacketWire × Bool :=
  match decodeInput playerId data with
  | none => (r, false)
  | some pkt => InputRing.push r pkt

/-! ## Snapshot wire format

Encoder: `GameServer::buildSnapshot` (game_server.cc lines 368-402).
Decoder: `NetClient.parseSnapshot` (client/src/net.ts lines 89-132). -/

structure SnapRecord where
  id : ℕ
  xBits : ℕ
  yBits : ℕ
  zBits : ℕ
  vxBits : ℕ
  vyBits : ℕ
  vzBits : ℕ
  yawBits : ℕ
  pitchBits : ℕ
  health : ℤ
  active : Bool
  isBot : Bool
  weapon : ℕ
  lastSeq : ℕ
deriving DecidableEq

/-- One 45-byte player record, exactly as `buildSnapshot` writes it. -/
def encodeRecord (p : SnapRecord) : List ℕ :=
  le32 p.id ++ le32 p.xBits ++ le32 p.yBits ++ le32 p.zBits ++
  le32 p.vxBits ++ le32 p.vyBits ++ le32 p.vzBits ++
  le32 p.yawBits ++ le32 p.pitchBits ++
  le16 (toLow16 p.health) ++
  [if p.active then 1 else 0] ++ [if p.isBot then 1 else 0] ++
  [p.weapon % 256] ++ le32 p.lastSeq

/-- `buildSnapshot`: `u32 tick | u16 playerCount | records`.  The `u16` cast
of `players_.size()` keeps only the low 16 bits, as `static_cast<uint16_t>`
does (`le16` itself drops the upper bits). -/
def buildSnapshot (tick : ℕ) (players : List SnapRecord) : List ℕ :=
  le32 (tick % 4294967296) ++ le16 players.length ++ players.flatMap encodeRecord

/-- One record as `parseSnapshot` reads it from the head of the remaining
bytes (`DataView` offsets relative to the record start). -/
def parseRecord (l : List ℕ) : SnapRecord :=
  { id := getU32 l 0
    xBits := getU32 l 4
    yBits := getU32 l 8
    zBits := getU32 l 12
    vxBits := getU32 l 16
    vyBits := getU32 l 20
    vzBits := getU32 l 24
    yawBits := getU32 l 28
    pitchBits := getU32 l 32
    health := getI16 l 36
    active := byteAt l 38 = 1
    isBot := byteAt l 39 = 1
    weapon := byteAt l 40
    lastSeq := getU32 l 41 }

/-- The record loop of `parseSnapshot`: stops early (like the `break`) when
fewer than 45 bytes remain. -/
def parseRecords : ℕ → List ℕ → List SnapRecord
  | 0, _ => []
  | n + 1, l => if l.length < 45 then [] else parseRecord l :: parseRecords n (l.drop 45)

/-- `NetClient.parseSnapshot`: `null` when shorter than the 6-byte header. -/
def parseSnapshot (l : List ℕ) : Option (ℕ × List SnapRecord) :=
  if l.length < 6 then none
  else some (getU32 l 0, parseRecords (getU16 l 4) (l.drop 6))

/-- Field bounds under which a record is representable on the wire: ids,
sequence numbers and float bit patterns fit in 32 bits, `health` fits in the
`i16` wire field, `weapon` is a byte. -/
def wfRecord (p : SnapRecord) : Prop :=
  p.id < 4294967296 ∧ p.xBits < 4294967296 ∧ p.yBits < 4294967296 ∧
  p.zBits < 4294967296 ∧ p.vxBits < 4294967296 ∧ p.vyBits < 4294967296 ∧
  p.vzBits < 4294967296 ∧ p.yawBits < 4294967296 ∧ p.pitchBits < 4294967296 ∧
  -32768 ≤ p.health ∧ p.health < 32768 ∧ p.weapon < 256 ∧ p.lastSeq < 4294967296

instance (p : SnapRecord) : Decidable (wfRecord p) := by unfold wfRecord; infer_instance

/-! ## Simulation data model

`InputPacket` and `PlayerState` from server/addon (header in the repository),
with float fields over an abstract linear ordered field `K`. -/

structure InputPacket (K : Type) where
  playerId : ℕ
  seq : ℕ
  moveX : K
  moveZ : K
  yaw : K
  pitch : K
  fire : Bool
  weapon : ℕ
  jump : Bool
deriving DecidableEq

structure Player (K : Type) where
  id : ℕ
  x : K
  y : K
  z : K
  vx : K
  vy : K
  vz : K
  yaw : K
  pitch : K
  health : ℤ
  lastSeq : ℕ
  active : Bool
  respawnTick : ℕ
  lastFireTick : ℕ
  lastInputTick : ℕ
  weapon : ℕ
  isBot : Bool
  grounded : Bool
deriving DecidableEq

/-- `SpiderEntity` with its in-struct default constants
(`aggroRange = 18`, `attackRange = 1.5`, `attackDamage = 8`,
`attackCooldownTicks = 30`, `moveSpeed = 5`). -/
structure SpiderEntity (K : Type) where
  id : ℕ
  x : K
  y : K
  z : K
  vx : K
  vz : K
  yaw : K
  health : ℤ
  active : Bool
  targetPlayerId : ℕ
  lastAttackTick : ℕ
  aggroRange : K
  attackRange : K
  attackDamage : ℤ
  attackCooldownTicks : ℕ
  moveSpeed : K
deriving DecidableEq

/-! ## Combat resolver (game_server.cc lines 203-238, game_server_ai.cc lines 82-93) -/

variable {K : Type} [LinearOrderedField K]

/-- `clampf` from game_server.cc: `std::max(lo, std::min(hi, v))`. -/
def clampf (v lo hi : K) : K := max lo (min hi v)

/-- `kShotgun.cooldownTicks`. -/
def gunCooldownTicks : ℕ := 16

/-- `kShotgun.range`. -/
def gunRange : K := 22

/-- `kShotgun.maxDamage`. -/
def gunMaxDamage : K := 84

/-- `kShotgun.minDamage`. -/
def gunMinDamage : K := 12

/-- `kShotgun.pellets`. -/
def gunPellets : ℕ := 8

/-- `std::round` on the nonnegative damage totals that occur here
(half-away-from-zero equals `⌊x + 1/2⌋` for `x ≥ 0`). -/
def roundNearest [FloorRing K] (x : K) : ℤ := ⌊x + 1 / 2⌋

/-- Damage contribution of one pellet given the oracle hit distance
(`none` = ray missed): linear falloff between `minDamage/pellets` and
`maxDamage/pellets` by `t = clampf(1 - hitDist/range, 0, 1)`. -/
def pelletDamage (hit : Option K) : K :=
  match hit with
  | none => 0
  | some d =>
    let t := clampf (1 - d / gunRange) 0 1
    let pelletMax := gunMaxDamage / (gunPellets : K)
    let pelletMin := gunMinDamage / (gunPellets : K)
    pelletMin + t * (pelletMax - pelletMin)

/-- `totalDamage` accumulated over the pellet loop. -/
def totalPelletDamage (hits : List (Option K)) : K := (hits.map pelletDamage).sum

/-- Damage application to one target (game_server.cc lines 229-236):
subtract the rounded total, clamp at 0, flip `active` and schedule
`respawnTick = now + 180` when health reaches 0. -/
def applyShotDamage [FloorRing K] (tick : ℕ) (target : Player K) (dmg : K) : Player K :=
  if 0 < dmg then
    if max 0 (target.health - roundNearest dmg) ≤ 0 then
      { target with health := max 0 (target.health - roundNearest dmg), active := false,
                    respawnTick := tick + 180 }
    else { target with health := max 0 (target.health - roundNearest dmg) }
  else target

/-- One iteration of the target loop (game_server.cc lines 210-237): inactive
targets, the shooter itself, and already-dead targets are skipped. -/
def fireAtTarget [FloorRing K] (shooterId tick : ℕ) (target : Player K)
    (hits : List (Option K)) : Player K :=
  if target.active = false ∨ target.id = shooterId ∨ target.health ≤ 0 then target
  else applyShotDamage tick target (totalPelletDamage hits)

/-- The target loop, consuming one per-target pellet-hit oracle per player. -/
def fireTargets [FloorRing K] (shooterId tick : ℕ) :
    List (Player K) → List (List (Option K)) → List (Player K)
  | [], _ => []
  | t :: ts, hs => fireAtTarget shooterId tick t (hs.headD []) :: fireTargets shooterId tick ts hs.tail

/-- The fire branch of `processInput` (game_server.cc lines 203-238): the
cooldown gate `packet.fire && currentTick - lastFireTick >= cooldownTicks`,
the single `lastFireTick` update on acceptance, and the target loop. -/
def processFire [FloorRing K] (p : Player K) (fire : Bool) (tick : ℕ)
    (targets : List (Player K)) (hits : List (List (Option K))) :
    Player K × List (Player K) :=
  if fire ∧ gunCooldownTicks ≤ tick - p.lastFireTick then
    ({ p with lastFireTick := tick }, fireTargets p.id tick targets hits)
  else (p, targets)

/-- The in-attack-range branch of `updateSpiders`
(game_server_ai.cc lines 82-93): on cooldown expiry subtract `attackDamage`
(with no clamp), flip `active` and schedule `respawnTick = tick + 180` when
health reaches 0; in every branch of the in-range case the spider then stops
(`vx = vz = 0`, distributed here into each alternative). -/
def spiderAttack (spider : SpiderEntity K) (target : Player K) (tick : ℕ) :
    SpiderEntity K × Player K :=
  if spider.attackCooldownTicks ≤ tick - spider.lastAttackTick then
    if target.health - spider.attackDamage ≤ 0 then
      ({ spider with lastAttackTick := tick, vx := 0, vz := 0 },
       { target with health := target.health - spider.attackDamage, active := false,
                     respawnTick := tick + 180 })
    else
      ({ spider with lastAttackTick := tick, vx := 0, vz := 0 },
       { target with health := target.health - spider.attackDamage })
  else ({ spider with vx := 0, vz := 0 }, target)

/-- `GameServer::respawnPlayer` (game_server.cc lines 313-353) with the random
spawn-point search collapsed into the `spawnPos` oracle; every deterministic
field reset is verbatim. -/
def respawnPlayer (spawnPos : K × K) (tick : ℕ) (p : Player K) : Player K :=
  { p with x := spawnPos.1, z := spawnPos.2, y := 1, vx := 0, vy := 0, vz := 0,
           health := 100, active := true, lastFireTick := 0, lastInputTick := tick,
           weapon := 0, grounded := true }

/-! ## Geometry and the movement integrator (game_server.cc lines 241-311, 592-687) -/

structure Wall (K : Type) where
  minX : K
  maxX : K
  minZ : K
  maxZ : K
deriving DecidableEq

structure Platform (K : Type) where
  minX : K
  maxX : K
  minZ : K
  maxZ : K
  height : K
deriving DecidableEq

/-- `playerRadius_ = 0.35f`. -/
def playerRadius : K := 7 / 20

/-- `GameServer::overlapsWall`: strict overlap of the expanded XZ footprint
with the wall rectangle. -/
def overlapsWall (x z : K) (w : Wall K) : Prop :=
  x + playerRadius > w.minX ∧ x - playerRadius < w.maxX ∧
  z + playerRadius > w.minZ ∧ z - playerRadius < w.maxZ

instance (x z : K) (w : Wall K) : Decidable (overlapsWall x z w) := by
  unfold overlapsWall; infer_instance

/-- The body of the `resolveWalls` loop (game_server.cc lines 636-653): the
four penetrations, the sequential minimum scan giving left→right→near→far tie
order, and the push-out with the matching velocity component zeroed. -/
def resolveWallStep (p : Player K) (w : Wall K) : Player K :=
  if overlapsWall p.x p.z w then
    let penLeft := w.maxX - (p.x - playerRadius)
    let penRight := (p.x + playerRadius) - w.minX
    let penDown := (p.z + playerRadius) - w.minZ
    let penUp := w.maxZ - (p.z - playerRadius)
    let m2 := if penRight < penLeft then penRight else penLeft
    let a2 : ℕ := if penRight < penLeft then 1 else 0
    let m3 := if penDown < m2 then penDown else m2
    let a3 := if penDown < m2 then 2 else a2
    let a4 := if penUp < m3 then 3 else a3
    if a4 = 0 then { p with x := w.maxX + playerRadius, vx := 0 }
    else if a4 = 1 then { p with x := w.minX - playerRadius, vx := 0 }
    else if a4 = 2 then { p with z := w.minZ - playerRadius, vz := 0 }
    else { p with z := w.maxZ + playerRadius, vz := 0 }
  else p

/-- `GameServer::resolveWalls` / `Predictor.resolveWalls` (the client code is
the identical algorithm; only the wall list differs). -/
def resolveWalls (walls : List (Wall K)) (p : Player K) : Player K :=
  walls.foldl resolveWallStep p

/-- The body of the server `resolvePlatforms` loop (game_server.cc lines
658-686): landing band snap (sets `grounded`), then side push-out only at or
below the top plane. -/
def resolvePlatformStep (p : Player K) (pl : Platform K) : Player K :=
  if p.x + playerRadius > pl.minX ∧ p.x - playerRadius < pl.maxX ∧
     p.z + playerRadius > pl.minZ ∧ p.z - playerRadius < pl.maxZ then
    let top := pl.height
    let p1 :=
      if p.vy < 0 ∧ p.y ≤ top + 1 / 5 ∧ p.y ≥ top - 4 / 5 then
        { p with y := top, vy := 0, grounded := true }
      else p
    if p1.y > top + 1 / 5 then p1
    else
      let penLeft := pl.maxX - (p1.x - playerRadius)
      let penRight := (p1.x + playerRadius) - pl.minX
      let penDown := (p1.z + playerRadius) - pl.minZ
      let penUp := pl.maxZ - (p1.z - playerRadius)
      let m2 := if penRight < penLeft then penRight else penLeft
      let a2 : ℕ := if penRight < penLeft then 1 else 0
      let m3 := if penDown < m2 then penDown else m2
      let a3 := if penDown < m2 then 2 else a2
      let a4 := if penUp < m3 then 3 else a3
      if a4 = 0 then { p1 with x := pl.maxX + playerRadius, vx := 0 }
      else if a4 = 1 then { p1 with x := pl.minX - playerRadius, vx := 0 }
      else if a4 = 2 then { p1 with z := pl.minZ - playerRadius, vz := 0 }
      else { p1 with z := pl.maxZ + playerRadius, vz := 0 }
  else p

def resolvePlatforms (platforms : List (Platform K)) (p : Player K) : Player K :=
  platforms.foldl resolvePlatformStep p

/-- The client platform step (predict.ts lines 172-197): identical to the
server step except that the landing branch does not touch a grounded flag
(the client state has none). -/
def clientResolvePlatformStep (p : Player K) (pl : Platform K) : Player K :=
  if p.x + playerRadius > pl.minX ∧ p.x - playerRadius < pl.maxX ∧
     p.z + playerRadius > pl.minZ ∧ p.z - playerRadius < pl.maxZ then
    let top := pl.height
    let p1 :=
      if p.vy < 0 ∧ p.y ≤ top + 1 / 5 ∧ p.y ≥ top - 4 / 5 then
        { p with y := top, vy := 0 }
      else p
    if p1.y > top + 1 / 5 then p1
    else
      let penLeft := pl.maxX - (p1.x - playerRadius)
      let penRight := (p1.x + playerRadius) - pl.minX
      let penDown := (p1.z + playerRadius) - pl.minZ
      let penUp := pl.maxZ - (p1.z - playerRadius)
      let m2 := if penRight < penLeft then penRight else penLeft
      let a2 : ℕ := if penRight < penLeft then 1 else 0
      let m3 := if penDown < m2 then penDown else m2
      let a3 := if penDown < m2 then 2 else a2
      let a4 := if penUp < m3 then 3 else a3
      if a4 = 0 then { p1 with x := pl.maxX + playerRadius, vx := 0 }
      else if a4 = 1 then { p1 with x := pl.minX - playerRadius, vx := 0 }
      else if a4 = 2 then { p1 with z := pl.minZ - playerRadius, vz := 0 }
      else { p1 with z := pl.maxZ + playerRadius, vz := 0 }
  else p

def clientResolvePlatforms (platforms : List (Platform K)) (p : Player K) : Player K :=
  platforms.foldl clientResolvePlatformStep p

/-- The transcendental float operations used by the integrator. -/
structure FloatOps (K : Type) where
  sqrt : K → K
  sin : K → K
  cos : K → K

noncomputable def realOps : FloatOps ℝ :=
  { sqrt := Real.sqrt, sin := Real.sin, cos := Real.cos }

/-- The raw (pre-normalisation) wish direction: forward/right basis from yaw
combined with the movement intent (`forward = (-sin yaw, -cos yaw)`,
`right = (cos yaw, -sin yaw)`). -/
def rawWishDir (ops : FloatOps K) (yaw moveX moveZ : K) : K × K :=
  let forwardX := -(ops.sin yaw)
  let forwardZ := -(ops.cos yaw)
  let rightX := ops.cos yaw
  let rightZ := -(ops.sin yaw)
  (forwardX * moveZ + rightX * moveX, forwardZ * moveZ + rightZ * moveX)

/-- Normalisation guarded by `len > 1e-4`. -/
def normalizeDir (sqrtFn : K → K) (v : K × K) : K × K :=
  let len := sqrtFn (v.1 * v.1 + v.2 * v.2)
  if len > 1 / 10000 then (v.1 / len, v.2 / len) else v

def wishDirection (ops : FloatOps K) (yaw moveX moveZ : K) : K × K :=
  normalizeDir ops.sqrt (rawWishDir ops yaw moveX moveZ)

/-- Acceleration stage: `v += moveDir * accel * dt` with `accel = 50`. -/
def accelStep (vx vz dx dz dt : K) : K × K := (vx + dx * 50 * dt, vz + dz * 50 * dt)

/-- Friction stage: `drop = speed * 8 * dt`, `newSpeed = max(0, speed - drop)`,
rescale when changed. -/
def frictionStep (sqrtFn : K → K) (vx vz dt : K) : K × K :=
  let speed := sqrtFn (vx * vx + vz * vz)
  if speed > 0 then
    let newSpeed := max 0 (speed - speed * 8 * dt)
    if newSpeed ≠ speed then (vx * (newSpeed / speed), vz * (newSpeed / speed))
    else (vx, vz)
  else (vx, vz)

/-- Clamp stage: rescale to `maxSpeed = 12` when exceeded. -/
def clampStep (sqrtFn : K → K) (vx vz : K) : K × K :=
  let newSpeed := sqrtFn (vx * vx + vz * vz)
  if newSpeed > 12 then (vx * (12 / newSpeed), vz * (12 / newSpeed)) else (vx, vz)

/-- Final world-bounds AABB clamp plus the verbatim yaw/pitch store
(game_server.cc lines 304-310). -/
def worldClampFinish (half yaw pitch : K) (p : Player K) : Player K :=
  { p with x := clampf p.x (-half) half, z := clampf p.z (-half) half,
           yaw := yaw, pitch := pitch }

/-- `GameServer::integratePlayer` (game_server.cc lines 241-311):
accelerate → friction → clamp on the XZ velocity, integrate position, jump /
gravity / ground clamp on Y, wall then platform resolution, world clamp, and
the client-authoritative orientation store. -/
def integratePlayer (ops : FloatOps K) (walls : List (Wall K))
    (platforms : List (Platform K)) (half : K) (p : Player K)
    (input : InputPacket K) (dt : K) : Player K :=
  let w := wishDirection ops input.yaw input.moveX input.moveZ
  let v1 := accelStep p.vx p.vz w.1 w.2 dt
  let v2 := frictionStep ops.sqrt v1.1 v1.2 dt
  let v3 := clampStep ops.sqrt v2.1 v2.2
  let x1 := p.x + v3.1 * dt
  let z1 := p.z + v3.2 * dt
  let onGround0 := p.y ≤ 1 + 1 / 20
  let jumped := input.jump ∧ onGround0
  let vy0 := if jumped then (11 : K) else p.vy
  let onGround1 := if jumped then False else onGround0
  let vy1 := vy0 - 26 * dt
  let y1 := p.y + vy1 * dt
  let landed := y1 < 1
  let y2 := if landed then 1 else y1
  let vy2 := if landed then 0 else vy1
  let onGround2 := if landed then True else onGround1
  let p1 := { p with x := x1, z := z1, y := y2, vx := v3.1, vz := v3.2, vy := vy2,
                     grounded := decide onGround2 }
  let p2 := resolveWalls walls p1
  let p3 := resolvePlatforms platforms p2
  worldClampFinish half input.yaw input.pitch p3

/-- `setupMap` walls (game_server.cc lines 592-613): perimeter from the
configured half-extent plus the two fixed room shells. -/
def serverWalls (half : K) : List (Wall K) :=
  [⟨-half, half, half - 1, half⟩,
   ⟨-half, half, -half, -half + 1⟩,
   ⟨-half, -half + 1, -half, half⟩,
   ⟨half - 1, half, -half, half⟩,
   ⟨-18, 18, 18, 20⟩,
   ⟨-18, -6, 10, 12⟩,
   ⟨6, 18, 10, 12⟩,
   ⟨-18, -16, 10, 20⟩,
   ⟨16, 18, 10, 20⟩,
   ⟨-18, 18, -20, -18⟩,
   ⟨-18, -6, -12, -10⟩,
   ⟨6, 18, -12, -10⟩,
   ⟨-18, -16, -20, -10⟩,
   ⟨16, 18, -20, -10⟩]

/-- `setupMap` platforms (game_server.cc lines 616-623): five crates via
`addPlatform(cx, cz, 0.7, 1.4)`. -/
def serverPlatforms : List (Platform K) :=
  [⟨-14 - 7/10, -14 + 7/10, -14 - 7/10, -14 + 7/10, 7/5⟩,
   ⟨14 - 7/10, 14 + 7/10, 14 - 7/10, 14 + 7/10, 7/5⟩,
   ⟨-5 - 7/10, -5 + 7/10, -17 - 7/10, -17 + 7/10, 7/5⟩,
   ⟨5 - 7/10, 5 + 7/10, 17 - 7/10, 17 + 7/10, 7/5⟩,
   ⟨-7/10, 7/10, -7/10, 7/10, 7/5⟩]

/-- `WORLD_HALF = 24` hard-coded in predict.ts. -/
def clientWorldHalf : K := 24

/-- The `WALLS` constant of predict.ts (lines 25-40). -/
def clientWalls : List (Wall K) :=
  [⟨-clientWorldHalf, clientWorldHalf, clientWorldHalf - 1, clientWorldHalf⟩,
   ⟨-clientWorldHalf, clientWorldHalf, -clientWorldHalf, -clientWorldHalf + 1⟩,
   ⟨-clientWorldHalf, -clientWorldHalf + 1, -clientWorldHalf, clientWorldHalf⟩,
   ⟨clientWorldHalf - 1, clientWorldHalf, -clientWorldHalf, clientWorldHalf⟩,
   ⟨-18, 18, 18, 20⟩,
   ⟨-18, -6, 10, 12⟩,
   ⟨6, 18, 10, 12⟩,
   ⟨-18, -16, 10, 20⟩,
   ⟨16, 18, 10, 20⟩,
   ⟨-18, 18, -20, -18⟩,
   ⟨-18, -6, -12, -10⟩,
   ⟨6, 18, -12, -10⟩,
   ⟨-18, -16, -20, -10⟩,
   ⟨16, 18, -20, -10⟩]

/-- The `PLATFORMS` constant of predict.ts (lines 41-47). -/
def clientPlatforms : List (Platform K) :=
  [⟨-147/10, -133/10, -147/10, -133/10, 7/5⟩,
   ⟨133/10, 147/10, 133/10, 147/10, 7/5⟩,
   ⟨-57/10, -43/10, -177/10, -163/10, 7/5⟩,
   ⟨43/10, 57/10, 163/10, 177/10, 7/5⟩,
   ⟨-7/10, 7/10, -7/10, 7/10, 7/5⟩]

/-- `Predictor.applyCommand` (predict.ts lines 87-147): the client mirror of
`integratePlayer` against the hard-coded client geometry; it does not store a
grounded flag and forces `weapon = 0` at the end. -/
def clientApplyCommand (ops : FloatOps K) (state : Player K) (cmd : InputPacket K)
    (dt : K) : Player K :=
  let w := wishDirection ops cmd.yaw cmd.moveX cmd.moveZ
  let v1 := accelStep state.vx state.vz w.1 w.2 dt
  let v2 := frictionStep ops.sqrt v1.1 v1.2 dt
  let v3 := clampStep ops.sqrt v2.1 v2.2
  let x1 := state.x + v3.1 * dt
  let z1 := state.z + v3.2 * dt
  let onGround0 := state.y ≤ 1 + 1 / 20
  let jumped := cmd.jump ∧ onGround0
  let vy0 := if jumped then (11 : K) else state.vy
  let vy1 := vy0 - 26 * dt
  let y1 := state.y + vy1 * dt
  let landed := y1 < 1
  let y2 := if landed then 1 else y1
  let vy2 := if landed then 0 else vy1
  let p1 := { state with x := x1, z := z1, y := y2, vx := v3.1, vz := v3.2, vy := vy2 }
  let p2 := resolveWalls clientWalls p1
  let p3 := clientResolvePlatforms clientPlatforms p2
  { p3 with x := clampf p3.x (-clientWorldHalf) clientWorldHalf,
            z := clampf p3.z (-clientWorldHalf) clientWorldHalf,
            yaw := cmd.yaw, pitch := cmd.pitch, weapon := 0 }

/-- `GameServer::processInput` for an already-known player (game_server.cc
lines 186-238; the lazy entity-creation branch for unknown ids, lines
168-184, is outside the modelled path).  `others` are the remaining players
(the potential targets). -/
def processInput [FloorRing K] (ops : FloatOps K) (walls : List (Wall K))
    (platforms : List (Platform K)) (half dt : K) (spawnPos : K × K)
    (hits : List (List (Option K))) (p : Player K) (others : List (Player K))
    (packet : InputPacket K) (tick : ℕ) : Player K × List (Player K) :=
  let p0 := if p.active = false ∧ p.respawnTick ≤ tick then respawnPlayer spawnPos tick p else p
  if p0.active = false then
    ({ p0 with lastSeq := packet.seq, lastInputTick := tick }, others)
  else
    let p1 := { p0 with weapon := 0 }
    let p2 := integratePlayer ops walls platforms half p1 packet dt
    let p3 := { p2 with lastSeq := packet.seq, lastInputTick := tick }
    processFire p3 packet.fire tick others hits

/-! ## Concrete scenario states -/

/-- The cooldown gate schedule of the C3 scenario: an entity spawned at tick 0
(`lastFireTick = 0`) firing at every tick 0..20; the fold records the ticks at
which the gate `tick - lastFireTick ≥ 16` accepts. -/
def fireGateSchedule : ℕ × List ℕ :=
  (List.range 21).foldl
    (fun acc t => if gunCooldownTicks ≤ t - acc.1 then (t, acc.2 ++ [t]) else acc)
    (0, [])

def acceptedFireTicks : List ℕ := fireGateSchedule.2

def c3Base : Player ℚ :=
  { id := 1, x := 0, y := 0, z := 0, vx := 0, vy := 0, vz := 0, yaw := 0, pitch := 0,
    health := 0, lastSeq := 0, active := false, respawnTick := 0, lastFireTick := 99,
    lastInputTick := 0, weapon := 0, isBot := false, grounded := false }

/-- The C3 shooter: spawned at tick 0, so `respawnPlayer` set `lastFireTick = 0`. -/
def c3Shooter : Player ℚ := respawnPlayer (0, 0) 0 c3Base

def c3Target : Player ℚ :=
  { id := 2, x := 0, y := 1, z := -3, vx := 0, vy := 0, vz := 0, yaw := 0, pitch := 0,
    health := 100, lastSeq := 0, active := true, respawnTick := 0, lastFireTick := 0,
    lastInputTick := 0, weapon := 0, isBot := false, grounded := true }

/-- Pellet oracle for the C3 scenario: every pellet hits at distance 22 (the
exact weapon range, so each pellet deals the minimum 1.5 damage). -/
def c3PelletHits : List (Option ℚ) :=
  [some 22, some 22, some 22, some 22, some 22, some 22, some 22, some 22]

def c3Hits : List (List (Option ℚ)) := [c3PelletHits]

def c2Spider : SpiderEntity ℚ :=
  { id := 2000000, x := 0, y := 3/10, z := 0, vx := 0, vz := 0, yaw := 0, health := 80,
    active := true, targetPlayerId := 0, lastAttackTick := 0, aggroRange := 18,
    attackRange := 3/2, attackDamage := 8, attackCooldownTicks := 30, moveSpeed := 5 }

/-- A player at 5 health, about to take an 8-damage spider hit. -/
def c2Target : Player ℚ :=
  { id := 1, x := 1, y := 1, z := 0, vx := 0, vy := 0, vz := 0, yaw := 0, pitch := 0,
    health := 5, lastSeq := 0, active := true, respawnTick := 0, lastFireTick := 0,
    lastInputTick := 0, weapon := 0, isBot := false, grounded := true }

/-- The C1 failing state: a player standing at `x = 13.5` (inside the arena-14
east perimeter wall band, but in open space of the client's 24-world). -/
noncomputable def c1State : Player ℝ :=
  { id := 1, x := 27/2, y := 1, z := 0, vx := 0, vy := 0, vz := 0, yaw := 0, pitch := 0,
    health := 100, lastSeq := 0, active := true, respawnTick := 0, lastFireTick := 0,
    lastInputTick := 0, weapon := 0, isBot := false, grounded := true }

/-- A zero-intent command (no movement, no jump, no fire). -/
noncomputable def c1Cmd : InputPacket ℝ :=
  { playerId := 1, seq := 1, moveX := 0, moveZ := 0, yaw := 0, pitch := 0,
    fire := false, weapon := 0, jump := false }

def c9Player : Player ℚ :=
  { id := 4, x := 2, y := 1, z := 3, vx := 1, vy := 0, vz := 0, yaw := 2, pitch := 1,
    health := 0, lastSeq := 10, active := false, respawnTick := 500, lastFireTick := 40,
    lastInputTick := 41, weapon := 0, isBot := false, grounded := true }

def c9Other : Player ℚ :=
  { id := 5, x := 0, y := 1, z := 0, vx := 0, vy := 0, vz := 0, yaw := 0, pitch := 0,
    health := 100, lastSeq := 0, active := true, respawnTick := 0, lastFireTick := 0,
    lastInputTick := 0, weapon := 0, isBot := false, grounded := true }

def c9Packet : InputPacket ℚ :=
  { playerId := 4, seq := 11, moveX := 1, moveZ := 1, yaw := 3, pitch := 0,
    fire := true, weapon := 0, jump := true }

/-- Trivial float ops for rational witnesses (never reached on the paths the
witnesses exercise). -/
def zeroOps : FloatOps ℚ := { sqrt := fun _ => 0, sin := fun _ => 0, cos := fun _ => 0 }

/-! ## Theorems: byte helpers -/

theorem rd32_le32 (n : ℕ) (h : n < 4294967296) :
    rd32 (n % 256) (n / 256 % 256) (n / 65536 % 256) (n / 16777216 % 256) = n := by
  unfold rd32; omega

theorem rd16_low16 (n : ℕ) : rd16 (n % 256) (n / 256 % 256) = n % 65536 := by
  unfold rd16; omega

/-! ## Theorems: InputRing -/

namespace InputRing

theorem wf_push (r : InputRing α) (x : α) (h : wf r) : wf (push r x).1 := by
  obtain ⟨h1, h2⟩ := h
  unfold push wf
  split
  · exact ⟨h1, h2⟩
  · exact ⟨Nat.mod_lt _ (by norm_num [ringSize]), h2⟩

theorem push_full (r : InputRing α) (x : α) (h : isFull r) : push r x = (r, false) := by
  unfold isFull at h
  unfold push
  rw [if_pos h]

theorem push_not_full (r : InputRing α) (x : α) (hwf : wf r) (h : ¬ isFull r) :
    (push r x).2 = true ∧ toList (push r x).1 = toList r ++ [x] := by
  obtain ⟨h1, h2⟩ := hwf
  unfold isFull at h
  have hpush : push r x =
      ({ buffer := fun j => if j = r.head then x else r.buffer j,
         head := (r.head + 1) % ringSize, tail := r.tail }, true) := by
    unfold push
    rw [if_neg h]
  refine ⟨by rw [hpush], ?_⟩
  rw [hpush]
  simp only [ringSize] at h h1 h2
  have hcnt : count ({ buffer := fun j => if j = r.head then x else r.buffer j,
                       head := (r.head + 1) % ringSize, tail := r.tail } : InputRing α) =
      count r + 1 := by
    simp only [count, ringSize]
    omega
  unfold toList
  rw [hcnt, List.range_succ, List.map_append, List.map_cons, List.map_nil]
  congr 1
  · apply List.map_congr_left
    intro i hi
    rw [List.mem_range] at hi
    simp only [count, ringSize] at hi
    have hne : (r.tail + i) % ringSize ≠ r.head := by
      simp only [ringSize]
      omega
    simp only [hne, if_false]
  · have heq : (r.tail + count r) % ringSize = r.head := by
      simp only [count, ringSize]
      omega
    simp [heq]

theorem pop_empty (r : InputRing α) (hwf : wf r) (h : toList r = []) : pop r = (r, none) := by
  obtain ⟨h1, h2⟩ := hwf
  have hc : count r = 0 := by
    by_contra hc
    have hx : toList r ≠ [] := by
      unfold toList
      simp [List.range_eq_nil, hc]
    exact hx h
  have hte : r.tail = r.head := by
    simp only [count, ringSize] at hc
    simp only [ringSize] at h1 h2
    omega
  unfold pop
  rw [if_pos hte]

theorem pop_cons (r : InputRing α) (hwf : wf r) (y : α) (ys : List α)
    (h : toList r = y :: ys) :
    (pop r).2 = some y ∧ toList (pop r).1 = ys ∧ wf (pop r).1 := by
  obtain ⟨h1, h2⟩ := hwf
  have hc : count r ≠ 0 := by
    intro hc
    rw [toList, hc] at h
    simp at h
  have hne : r.tail ≠ r.head := by
    intro hte
    apply hc
    simp [count, hte, ringSize]
  have hpop : pop r = ({ r with tail := (r.tail + 1) % ringSize }, some (r.buffer r.tail)) := by
    unfold pop
    rw [if_neg hne]
  obtain ⟨k, hk⟩ : ∃ k, count r = k + 1 := ⟨count r - 1, by omega⟩
  have hlist : toList r =
      r.buffer (r.tail % ringSize) ::
        (List.range k).map fun i => r.buffer ((r.tail + (i + 1)) % ringSize) := by
    unfold toList
    rw [hk, List.range_succ_eq_map, List.map_cons, List.map_map]
    rfl
  have hy : y = r.buffer r.tail := by
    rw [hlist] at h
    have hinj := (List.cons.injEq _ _ _ _).mp h
    rw [Nat.mod_eq_of_lt h2] at hinj
    exact hinj.1.symm
  have hys : ys = (List.range k).map fun i => r.buffer ((r.tail + (i + 1)) % ringSize) := by
    rw [hlist] at h
    exact ((List.cons.injEq _ _ _ _).mp h).2.symm
  refine ⟨by rw [hpop, hy], ?_, ?_⟩
  · have hc' : count ({ r with tail := (r.tail + 1) % ringSize } : InputRing α) = k := by
      simp only [count, ringSize] at hk ⊢
      simp only [ringSize] at h1 h2
      omega
    rw [hpop]
    unfold toList
    rw [hc', hys]
    apply List.map_congr_left
    intro i hi
    have harg : ((r.tail + 1) % ringSize + i) % ringSize = (r.tail + (i + 1)) % ringSize := by
      rw [Nat.mod_add_mod]
      congr 1
      omega
    rw [harg]
  · rw [hpop]
    exact ⟨h1, Nat.mod_lt _ (by norm_num [ringSize])⟩

end InputRing

/-! ## Theorems: snapshot wire format -/

theorem length_encodeRecord (p : SnapRecord) : (encodeRecord p).length = 45 := by
  simp [encodeRecord, le32, le16]

theorem parseRecord_encodeRecord (p : SnapRecord) (h : wfRecord p) (rest : List ℕ) :
    parseRecord (encodeRecord p ++ rest) = p := by
  obtain ⟨h1, h2, h3, h4, h5, h6, h7, h8, h9, h10, h11, h12, h13⟩ := h
  obtain ⟨id, xB, yB, zB, vxB, vyB, vzB, yawB, pB, hp, act, bot, wpn, seq⟩ := p
  simp only [encodeRecord, le32, le16, toLow16, List.cons_append, List.nil_append] at *
  simp only [parseRecord, getU32, getI16, getU16, rd32, rd16, byteAt]
  simp only [SnapRecord.mk.injEq]
  refine ⟨by omega, by omega, by omega, by omega, by omega, by omega, by omega, by omega,
    by omega, ?_, ?_, ?_, by omega, by omega⟩
  · split <;> omega
  · cases act <;> simp
  · cases bot <;> simp

theorem parseRecords_flatMap (ps : List SnapRecord) (h : ∀ p ∈ ps, wfRecord p) :
    parseRecords ps.length (ps.flatMap encodeRecord) = ps := by
  induction ps with
  | nil => rfl
  | cons p ps ih =>
    rw [List.flatMap_cons, List.length_cons]
    have hlen : (encodeRecord p ++ ps.flatMap encodeRecord).length = 45 + (ps.flatMap encodeRecord).length := by
      rw [List.length_append, length_encodeRecord]
    rw [parseRecords, if_neg (by omega)]
    have hdrop : (encodeRecord p ++ ps.flatMap encodeRecord).drop 45 = ps.flatMap encodeRecord := by
      have := List.drop_left (encodeRecord p) (ps.flatMap encodeRecord)
      rwa [length_encodeRecord] at this
    rw [parseRecord_encodeRecord p (h p (List.mem_cons_self p ps)) _, hdrop,
      ih fun q hq => h q (List.mem_cons_of_mem _ hq)]

theorem getU32_head (b0 b1 b2 b3 : ℕ) (rest : List ℕ) :
    getU32 (b0 :: b1 :: b2 :: b3 :: rest) 0 = rd32 b0 b1 b2 b3 := by
  simp [getU32, byteAt]

theorem getU16_at4 (b0 b1 b2 b3 c0 c1 : ℕ) (rest : List ℕ) :
    getU16 (b0 :: b1 :: b2 :: b3 :: c0 :: c1 :: rest) 4 = rd16 c0 c1 := by
  simp [getU16, byteAt]

theorem drop6_cons (b0 b1 b2 b3 c0 c1 : ℕ) (rest : List ℕ) :
    (b0 :: b1 :: b2 :: b3 :: c0 :: c1 :: rest).drop 6 = rest := rfl

/-! ## Claim theorems: wire formats and the input queue -/

/-- C8: for every state of the bounded input queue, `push` returns `true` and
enqueues the command when the queue is not full, and returns `false` and drops
it without modifying the queue when it is full; `pop` returns the oldest
queued command (FIFO) when non-empty and nothing when empty. -/
theorem c8_input_ring {α : Type} (r : InputRing α) (x : α) (h : InputRing.wf r) :
    (¬ InputRing.isFull r →
      (InputRing.push r x).2 = true ∧
      InputRing.toList (InputRing.push r x).1 = InputRing.toList r ++ [x]) ∧
    (InputRing.isFull r → InputRing.push r x = (r, false)) ∧
    (InputRing.toList r = [] → InputRing.pop r = (r, none)) ∧
    (∀ y ys, InputRing.toList r = y :: ys →
      (InputRing.pop r).2 = some y ∧ InputRing.toList (InputRing.pop r).1 = ys) :=
  ⟨fun hf => InputRing.push_not_full r x h hf,
   fun hf => InputRing.push_full r x hf,
   fun he => InputRing.pop_empty r h he,
   fun y ys hc => ⟨(InputRing.pop_cons r h y ys hc).1, (InputRing.pop_cons r h y ys hc).2.1⟩⟩

theorem c8_input_ring_witness :
    (InputRing.pop (⟨fun _ => (7 : ℕ), 1, 0⟩ : InputRing ℕ)).2 = some 7 ∧
    InputRing.toList (InputRing.pop (⟨fun _ => (7 : ℕ), 1, 0⟩ : InputRing ℕ)).1 = [] ∧
    (InputRing.push (⟨fun _ => (7 : ℕ), 1, 0⟩ : InputRing ℕ) 9).2 = true := by
  have hwf : InputRing.wf (⟨fun _ => (7 : ℕ), 1, 0⟩ : InputRing ℕ) :=
    ⟨by norm_num [ringSize], by norm_num [ringSize]⟩
  have h := c8_input_ring (⟨fun _ => (7 : ℕ), 1, 0⟩ : InputRing ℕ) 9 hwf
  exact ⟨(h.2.2.2 7 [] (by decide)).1, (h.2.2.2 7 [] (by decide)).2,
    (h.1 (by decide)).1⟩

/-- C7: an input payload shorter than the fixed 23-byte command format is
rejected at the boundary — `false` to the caller, nothing enqueued — while a
payload of at least 23 bytes decodes `u32 seq, f32 moveX, moveZ, yaw, pitch,
u8 fire, u8 weaponSlot, u8 jump` at the fixed little-endian offsets
0, 4, 8, 12, 16, 20, 21, 22. -/
theorem c7_input_boundary (r : InputRing InputPacketWire) (pid : ℕ) (data : List ℕ) :
    (data.length < 23 →
      decodeInput pid data = none ∧ pushInputBoundary r pid data = (r, false)) ∧
    (23 ≤ data.length →
      decodeInput pid data = some
        { playerId := pid
          seq := rd32 (byteAt data 0) (byteAt data 1) (byteAt data 2) (byteAt data 3)
          moveXBits := rd32 (byteAt data 4) (byteAt data 5) (byteAt data 6) (byteAt data 7)
          moveZBits := rd32 (byteAt data 8) (byteAt data 9) (byteAt data 10) (byteAt data 11)
          yawBits := rd32 (byteAt data 12) (byteAt data 13) (byteAt data 14) (byteAt data 15)
          pitchBits := rd32 (byteAt data 16) (byteAt data 17) (byteAt data 18) (byteAt data 19)
          fire := byteAt data 20 ≠ 0
          weapon := byteAt data 21
          jump := byteAt data 22 ≠ 0 }) := by
  constructor
  · intro h
    have hd : decodeInput pid data = none := by
      unfold decodeInput
      rw [if_pos h]
    refine ⟨hd, ?_⟩
    unfold pushInputBoundary
    rw [hd]
  · intro h
    unfold decodeInput
    rw [if_neg (by omega)]
    have hj : 22 < data.length := by omega
    simp [getU32, hj]

theorem c7_input_boundary_witness :
    (decodeInput 5 [1, 2, 3] = none ∧
      pushInputBoundary (⟨fun _ => default, 0, 0⟩ : InputRing InputPacketWire) 5 [1, 2, 3] =
        ((⟨fun _ => default, 0, 0⟩ : InputRing InputPacketWire), false)) ∧
    decodeInput 5
        [9, 0, 0, 0, 1, 0, 0, 0, 2, 0, 0, 0, 3, 0, 0, 0, 4, 0, 0, 0, 1, 0, 1] =
      some
        { playerId := 5, seq := 9, moveXBits := 1, moveZBits := 2, yawBits := 3,
          pitchBits := 4, fire := true, weapon := 0, jump := true } := by
  refine ⟨(c7_input_boundary _ 5 [1, 2, 3]).1 (by decide), ?_⟩
  have h := (c7_input_boundary (⟨fun _ => default, 0, 0⟩ : InputRing InputPacketWire) 5
    [9, 0, 0, 0, 1, 0, 0, 0, 2, 0, 0, 0, 3, 0, 0, 0, 4, 0, 0, 0, 1, 0, 1]).2 (by decide)
  rw [h]
  decide

/-- C4: encoding any list of entity records (fields within their wire ranges)
with the server snapshot encoder — header `u32 tick | u16 playerCount`, then
one 45-byte little-endian record per entity — and decoding with the client
snapshot parser yields the original tick, count and every record
field-for-field. -/
theorem c4_snapshot_roundtrip (tick : ℕ) (ps : List SnapRecord)
    (htick : tick < 4294967296) (hlen : ps.length < 65536)
    (hrec : ∀ p ∈ ps, wfRecord p) :
    parseSnapshot (buildSnapshot tick ps) = some (tick, ps) := by
  unfold buildSnapshot parseSnapshot
  rw [Nat.mod_eq_of_lt htick]
  simp only [le32, le16, List.cons_append, List.nil_append]
  rw [if_neg (by simp)]
  rw [getU32_head, getU16_at4, drop6_cons]
  rw [rd32_le32 tick htick, rd16_low16, Nat.mod_eq_of_lt hlen]
  rw [parseRecords_flatMap ps hrec]

theorem c4_snapshot_roundtrip_witness :
    parseSnapshot (buildSnapshot 77
        [{ id := 3, xBits := 1078530011, yBits := 1065353216, zBits := 0,
           vxBits := 3212836864, vyBits := 0, vzBits := 42, yawBits := 1, pitchBits := 2,
           health := -7, active := true, isBot := false, weapon := 0, lastSeq := 99 }]) =
      some (77,
        [{ id := 3, xBits := 1078530011, yBits := 1065353216, zBits := 0,
           vxBits := 3212836864, vyBits := 0, vzBits := 42, yawBits := 1, pitchBits := 2,
           health := -7, active := true, isBot := false, weapon := 0, lastSeq := 99 }]) := by
  apply c4_snapshot_roundtrip
  · decide
  · decide
  · decide

/-! ## Theorems: combat resolver -/

theorem roundNearest_nonneg [FloorRing K] (x : K) (h : 0 < x) : 0 ≤ roundNearest x := by
  unfold roundNearest
  refine Int.le_floor.mpr ?_
  push_cast
  linarith

theorem fireAtTarget_inactive [FloorRing K] (shooterId tick : ℕ) (target : Player K)
    (hits : List (Option K)) (h : target.active = false) :
    fireAtTarget shooterId tick target hits = target := by
  unfold fireAtTarget
  rw [if_pos (Or.inl h)]

theorem fireAtTarget_health_bounds [FloorRing K] (shooterId tick : ℕ) (target : Player K)
    (hits : List (Option K)) (h0 : 0 ≤ target.health) (h100 : target.health ≤ 100) :
    0 ≤ (fireAtTarget shooterId tick target hits).health ∧
    (fireAtTarget shooterId tick target hits).health ≤ 100 := by
  unfold fireAtTarget applyShotDamage
  split_ifs with hskip hdmg hkill
  · exact ⟨h0, h100⟩
  · have hr := roundNearest_nonneg _ hdmg
    dsimp only
    omega
  · have hr := roundNearest_nonneg _ hdmg
    dsimp only
    omega
  · exact ⟨h0, h100⟩

theorem fireAtTarget_flip [FloorRing K] (shooterId tick : ℕ) (target : Player K)
    (hits : List (Option K)) (hpos : 0 < target.health)
    (hle : (fireAtTarget shooterId tick target hits).health ≤ 0) :
    (fireAtTarget shooterId tick target hits).active = false ∧
    (fireAtTarget shooterId tick target hits).respawnTick = tick + 180 := by
  unfold fireAtTarget applyShotDamage at hle ⊢
  split_ifs at hle ⊢ with hskip hdmg hkill
  · omega
  · exact ⟨rfl, rfl⟩
  · dsimp only at hle
    exact absurd hle hkill
  · omega

theorem spiderAttack_flip (spider : SpiderEntity K) (target : Player K) (tick : ℕ)
    (hpos : 0 < target.health)
    (hle : (spiderAttack spider target tick).2.health ≤ 0) :
    (spiderAttack spider target tick).2.active = false ∧
    (spiderAttack spider target tick).2.respawnTick = tick + 180 := by
  unfold spiderAttack at hle ⊢
  split_ifs at hle ⊢ with hcd hkill
  · exact ⟨rfl, rfl⟩
  · dsimp only at hle
    exact absurd hle hkill
  · dsimp only at hle
    omega

/-! ## Claim theorems: combat resolver -/

/-- C2 counterexample: a spider attack on a 5-health player (cooldown expired
at tick 30) leaves the recorded health at `-3 < 0` — the spider damage path
(game_server_ai.cc line 84) subtracts `attackDamage` without the `max(0, ·)`
clamp that the shotgun path applies, so health is observable below 0.  The
flip to inactive and the `tick + 180` respawn schedule do happen. -/
theorem c2_spider_negative_health :
    (spiderAttack c2Spider c2Target 30).2.health = -3 ∧
    (spiderAttack c2Spider c2Target 30).2.health < 0 ∧
    (spiderAttack c2Spider c2Target 30).2.active = false ∧
    (spiderAttack c2Spider c2Target 30).2.respawnTick = 210 := by
  refine ⟨?_, ?_, ?_, ?_⟩ <;> decide

/-- C2 (amended): the shotgun damage path of `processInput` keeps
`0 ≤ health ≤ 100` (the subtraction is clamped at 0), and whenever a damage
application brings health to `≤ 0` the target's `active` flag is flipped to
`false` — exactly once, since inactive targets are skipped — with
`respawnTick = currentTick + 180`; the spider attack path also flips once and
schedules `tick + 180`, but it does not clamp, so health can go below 0
there. -/
theorem c2_damage_invariants :
    (∀ (K : Type) [LinearOrderedField K] [FloorRing K] (shooterId tick : ℕ)
        (target : Player K) (hits : List (Option K)),
      (0 ≤ target.health → target.health ≤ 100 →
        0 ≤ (fireAtTarget shooterId tick target hits).health ∧
        (fireAtTarget shooterId tick target hits).health ≤ 100) ∧
      (0 < target.health →
        (fireAtTarget shooterId tick target hits).health ≤ 0 →
        (fireAtTarget shooterId tick target hits).active = false ∧
        (fireAtTarget shooterId tick target hits).respawnTick = tick + 180) ∧
      (target.active = false → fireAtTarget shooterId tick target hits = target)) ∧
    (∀ (K : Type) [LinearOrderedField K] (spider : SpiderEntity K) (target : Player K)
        (tick : ℕ),
      0 < target.health →
      (spiderAttack spider target tick).2.health ≤ 0 →
      (spiderAttack spider target tick).2.active = false ∧
      (spiderAttack spider target tick).2.respawnTick = tick + 180) :=
  ⟨fun _ _ _ shooterId tick target hits =>
    ⟨fun h0 h100 => fireAtTarget_health_bounds shooterId tick target hits h0 h100,
     fun hpos hle => fireAtTarget_flip shooterId tick target hits hpos hle,
     fun hact => fireAtTarget_inactive shooterId tick target hits hact⟩,
   fun _ _ spider target tick hpos hle => spiderAttack_flip spider target tick hpos hle⟩

theorem c2_damage_invariants_witness :
    (0 ≤ (fireAtTarget 1 40 c2Target c3PelletHits).health ∧
      (fireAtTarget 1 40 c2Target c3PelletHits).health ≤ 100) ∧
    (fireAtTarget 1 40 { c2Target with active := false } c3PelletHits =
      { c2Target with active := false }) ∧
    ((spiderAttack c2Spider c2Target 30).2.health ≤ 0 →
      (spiderAttack c2Spider c2Target 30).2.active = false ∧
      (spiderAttack c2Spider c2Target 30).2.respawnTick = 30 + 180) := by
  refine ⟨?_, ?_, ?_⟩
  · exact ((c2_damage_invariants.1 ℚ 1 40 c2Target c3PelletHits).1 (by decide) (by decide))
  · exact ((c2_damage_invariants.1 ℚ 1 40 { c2Target with active := false } c3PelletHits).2.2 rfl)
  · exact fun hle => c2_damage_invariants.2 ℚ c2Spider c2Target 30 (by decide) hle

/-- C3 counterexample: for an entity spawned at tick 0 (`respawnPlayer` sets
`lastFireTick = 0`), a fire command at tick 0 is rejected by the cooldown gate
`currentTick - lastFireTick >= 16` (`0 - 0 = 0 < 16`): no shot is resolved at
tick 0 (shooter and target are returned unchanged), and over ticks 0..20 the
gate accepts only tick 16 — not ticks 0 and 16 as claimed. -/
theorem c3_no_shot_at_tick_zero :
    processFire c3Shooter true 0 [c3Target] c3Hits = (c3Shooter, [c3Target]) ∧
    acceptedFireTicks = [16] ∧ 0 ∉ acceptedFireTicks := by
  refine ⟨?_, by decide, by decide⟩
  unfold processFire
  rw [if_neg (by decide)]

/-- C3 (amended): in the 21-tick scenario the cooldown gate accepts only
tick 16 (the fold `fireGateSchedule` over ticks 0..20); a fire command at an
accepted tick registers hits (the concrete tick-16 volley takes the target
from 100 to 88 health); `lastFireTick` is set to the current tick exactly
once per accepted fire command, independent of the pellet-hit oracle, and a
rejected command leaves shooter and targets untouched. -/
theorem c3_cooldown_schedule :
    acceptedFireTicks = [16] ∧
    fireAtTarget 1 16 c3Target c3PelletHits = { c3Target with health := 88 } ∧
    (∀ (K : Type) [LinearOrderedField K] [FloorRing K] (p : Player K) (tick : ℕ)
        (targets : List (Player K)) (hits : List (List (Option K))),
      (gunCooldownTicks ≤ tick - p.lastFireTick →
        (processFire p true tick targets hits).1 = { p with lastFireTick := tick } ∧
        (processFire p true tick targets hits).2 = fireTargets p.id tick targets hits) ∧
      (¬ gunCooldownTicks ≤ tick - p.lastFireTick →
        processFire p true tick targets hits = (p, targets)) ∧
      (∀ fire : Bool, processFire p fire tick targets hits = (p, targets) ∨
        (processFire p fire tick targets hits).1 = { p with lastFireTick := tick })) := by
  refine ⟨by decide, ?_, ?_⟩
  · show fireAtTarget 1 16 c3Target c3PelletHits = { c3Target with health := 88 }
    have hdmg : totalPelletDamage c3PelletHits = 12 := by
      norm_num [totalPelletDamage, c3PelletHits, pelletDamage, clampf, gunRange,
        gunMaxDamage, gunMinDamage, gunPellets]
    have hround : roundNearest (12 : ℚ) = 12 := by
      norm_num [roundNearest]
    unfold fireAtTarget
    rw [if_neg (by decide)]
    unfold applyShotDamage
    rw [hdmg, hround, if_pos (by norm_num), if_neg (by decide)]
    rfl
  · intro K instK instF p tick targets hits
    refine ⟨fun hacc => ?_, fun hrej => ?_, fun fire => ?_⟩
    · unfold processFire
      rw [if_pos ⟨rfl, hacc⟩]
      exact ⟨rfl, rfl⟩
    · unfold processFire
      rw [if_neg fun hc => hrej hc.2]
    · unfold processFire
      split_ifs with hgate
      · exact Or.inr rfl
      · exact Or.inl rfl

theorem c3_cooldown_schedule_witness :
    (processFire c3Shooter true 16 [c3Target] c3Hits).1 =
      { c3Shooter with lastFireTick := 16 } ∧
    processFire c3Shooter true 3 [c3Target] c3Hits = (c3Shooter, [c3Target]) := by
  have h16 := c3_cooldown_schedule.2.2 ℚ c3Shooter 16 [c3Target] c3Hits
  have h3 := c3_cooldown_schedule.2.2 ℚ c3Shooter 3 [c3Target] c3Hits
  exact ⟨(h16.1 (by decide)).1, h3.2.1 (by decide)⟩

/-! ## Theorems: collision resolution -/

theorem resolveWallStep_skip (p : Player K) (w : Wall K) (h : ¬ overlapsWall p.x p.z w) :
    resolveWallStep p w = p := by
  unfold resolveWallStep
  rw [if_neg h]

theorem resolveWallStep_left (p : Player K) (w : Wall K) (h : overlapsWall p.x p.z w)
    (h1 : w.maxX - (p.x - playerRadius) ≤ (p.x + playerRadius) - w.minX)
    (h2 : w.maxX - (p.x - playerRadius) ≤ (p.z + playerRadius) - w.minZ)
    (h3 : w.maxX - (p.x - playerRadius) ≤ w.maxZ - (p.z - playerRadius)) :
    resolveWallStep p w = { p with x := w.maxX + playerRadius, vx := 0 } := by
  simp only [resolveWallStep, if_pos h, if_neg (not_lt.mpr h1), if_neg (not_lt.mpr h2),
    if_neg (not_lt.mpr h3)]
  simp

theorem resolveWallStep_right (p : Player K) (w : Wall K) (h : overlapsWall p.x p.z w)
    (h1 : (p.x + playerRadius) - w.minX < w.maxX - (p.x - playerRadius))
    (h2 : (p.x + playerRadius) - w.minX ≤ (p.z + playerRadius) - w.minZ)
    (h3 : (p.x + playerRadius) - w.minX ≤ w.maxZ - (p.z - playerRadius)) :
    resolveWallStep p w = { p with x := w.minX - playerRadius, vx := 0 } := by
  simp only [resolveWallStep, if_pos h, if_pos h1, if_neg (not_lt.mpr h2),
    if_neg (not_lt.mpr h3)]
  simp

theorem resolveWallStep_near (p : Player K) (w : Wall K) (h : overlapsWall p.x p.z w)
    (h1 : (p.z + playerRadius) - w.minZ < w.maxX - (p.x - playerRadius))
    (h2 : (p.z + playerRadius) - w.minZ < (p.x + playerRadius) - w.minX)
    (h3 : (p.z + playerRadius) - w.minZ ≤ w.maxZ - (p.z - playerRadius)) :
    resolveWallStep p w = { p with z := w.minZ - playerRadius, vz := 0 } := by
  rcases lt_or_le ((p.x + playerRadius) - w.minX) (w.maxX - (p.x - playerRadius)) with hc | hc
  · simp only [resolveWallStep, if_pos h, if_pos hc, if_pos h2, if_neg (not_lt.mpr h3)]
    simp
  · simp only [resolveWallStep, if_pos h, if_neg (not_lt.mpr hc), if_pos h1,
      if_neg (not_lt.mpr h3)]
    simp

theorem resolveWallStep_far (p : Player K) (w : Wall K) (h : overlapsWall p.x p.z w)
    (h1 : w.maxZ - (p.z - playerRadius) < w.maxX - (p.x - playerRadius))
    (h2 : w.maxZ - (p.z - playerRadius) < (p.x + playerRadius) - w.minX)
    (h3 : w.maxZ - (p.z - playerRadius) < (p.z + playerRadius) - w.minZ) :
    resolveWallStep p w = { p with z := w.maxZ + playerRadius, vz := 0 } := by
  rcases lt_or_le ((p.x + playerRadius) - w.minX) (w.maxX - (p.x - playerRadius)) with hc | hc
  · rcases lt_or_le ((p.z + playerRadius) - w.minZ) ((p.x + playerRadius) - w.minX) with hd | hd
    · simp only [resolveWallStep, if_pos h, if_pos hc, if_pos hd, if_pos h3]
      simp
    · simp only [resolveWallStep, if_pos h, if_pos hc, if_neg (not_lt.mpr hd), if_pos h2]
      simp
  · rcases lt_or_le ((p.z + playerRadius) - w.minZ) (w.maxX - (p.x - playerRadius)) with hd | hd
    · simp only [resolveWallStep, if_pos h, if_neg (not_lt.mpr hc), if_pos hd, if_pos h3]
      simp
    · simp only [resolveWallStep, if_pos h, if_neg (not_lt.mpr hc), if_neg (not_lt.mpr hd),
        if_pos h1]
      simp

theorem resolveWallStep_not_overlaps (p : Player K) (w : Wall K) :
    ¬ overlapsWall (resolveWallStep p w).x (resolveWallStep p w).z w := by
  by_cases h : overlapsWall p.x p.z w
  · rcases lt_or_le ((p.x + playerRadius) - w.minX) (w.maxX - (p.x - playerRadius)) with hc | hc
    · rcases lt_or_le ((p.z + playerRadius) - w.minZ) ((p.x + playerRadius) - w.minX) with hd | hd
      · rcases lt_or_le (w.maxZ - (p.z - playerRadius)) ((p.z + playerRadius) - w.minZ) with he | he
        · rw [resolveWallStep_far p w h (by linarith) (by linarith) he]
          rintro ⟨c1, c2, c3, c4⟩
          dsimp only at c4
          linarith
        · rw [resolveWallStep_near p w h (by linarith) hd he]
          rintro ⟨c1, c2, c3, c4⟩
          dsimp only at c3
          linarith
      · rcases lt_or_le (w.maxZ - (p.z - playerRadius)) ((p.x + playerRadius) - w.minX) with he | he
        · rw [resolveWallStep_far p w h (by linarith) he (by linarith)]
          rintro ⟨c1, c2, c3, c4⟩
          dsimp only at c4
          linarith
        · rw [resolveWallStep_right p w h hc hd he]
          rintro ⟨c1, c2, c3, c4⟩
          dsimp only at c1
          linarith
    · rcases lt_or_le ((p.z + playerRadius) - w.minZ) (w.maxX - (p.x - playerRadius)) with hd | hd
      · rcases lt_or_le (w.maxZ - (p.z - playerRadius)) ((p.z + playerRadius) - w.minZ) with he | he
        · rw [resolveWallStep_far p w h (by linarith) (by linarith) he]
          rintro ⟨c1, c2, c3, c4⟩
          dsimp only at c4
          linarith
        · rw [resolveWallStep_near p w h hd (by linarith) he]
          rintro ⟨c1, c2, c3, c4⟩
          dsimp only at c3
          linarith
      · rcases lt_or_le (w.maxZ - (p.z - playerRadius)) (w.maxX - (p.x - playerRadius)) with he | he
        · rw [resolveWallStep_far p w h he (by linarith) (by linarith)]
          rintro ⟨c1, c2, c3, c4⟩
          dsimp only at c4
          linarith
        · rw [resolveWallStep_left p w h (by linarith) hd he]
          rintro ⟨c1, c2, c3, c4⟩
          dsimp only at c2
          linarith
  · rw [resolveWallStep_skip p w h]
    exact h

/-! ## Claim theorems: collision resolution and world bounds -/

/-- C5: for an entity overlapping a single axis-aligned wall, `resolveWalls`
applies the smallest of the four push-out distances (left, right, near, far),
with ties resolved to the first axis in the fixed left→right→near→far check
order, zeroes the velocity component of the chosen axis, and afterwards the
expanded footprint has zero overlap with that wall. -/
theorem c5_wall_resolution {K : Type} [LinearOrderedField K] (p : Player K) (w : Wall K)
    (h : overlapsWall p.x p.z w) :
    resolveWalls [w] p = resolveWallStep p w ∧
    (w.maxX - (p.x - playerRadius) ≤ (p.x + playerRadius) - w.minX ∧
     w.maxX - (p.x - playerRadius) ≤ (p.z + playerRadius) - w.minZ ∧
     w.maxX - (p.x - playerRadius) ≤ w.maxZ - (p.z - playerRadius) →
      resolveWallStep p w = { p with x := w.maxX + playerRadius, vx := 0 }) ∧
    ((p.x + playerRadius) - w.minX < w.maxX - (p.x - playerRadius) ∧
     (p.x + playerRadius) - w.minX ≤ (p.z + playerRadius) - w.minZ ∧
     (p.x + playerRadius) - w.minX ≤ w.maxZ - (p.z - playerRadius) →
      resolveWallStep p w = { p with x := w.minX - playerRadius, vx := 0 }) ∧
    ((p.z + playerRadius) - w.minZ < w.maxX - (p.x - playerRadius) ∧
     (p.z + playerRadius) - w.minZ < (p.x + playerRadius) - w.minX ∧
     (p.z + playerRadius) - w.minZ ≤ w.maxZ - (p.z - playerRadius) →
      resolveWallStep p w = { p with z := w.minZ - playerRadius, vz := 0 }) ∧
    (w.maxZ - (p.z - playerRadius) < w.maxX - (p.x - playerRadius) ∧
     w.maxZ - (p.z - playerRadius) < (p.x + playerRadius) - w.minX ∧
     w.maxZ - (p.z - playerRadius) < (p.z + playerRadius) - w.minZ →
      resolveWallStep p w = { p with z := w.maxZ + playerRadius, vz := 0 }) ∧
    ¬ overlapsWall (resolveWallStep p w).x (resolveWallStep p w).z w := by
  refine ⟨?_, ?_, ?_, ?_, ?_, resolveWallStep_not_overlaps p w⟩
  · unfold resolveWalls
    rw [List.foldl_cons, List.foldl_nil]
  · exact fun hc => resolveWallStep_left p w h hc.1 hc.2.1 hc.2.2
  · exact fun hc => resolveWallStep_right p w h hc.1 hc.2.1 hc.2.2
  · exact fun hc => resolveWallStep_near p w h hc.1 hc.2.1 hc.2.2
  · exact fun hc => resolveWallStep_far p w h hc.1 hc.2.1 hc.2.2

theorem c5_wall_resolution_witness :
    resolveWalls [(⟨-1/2, 1, -2, 2⟩ : Wall ℚ)] c2Target =
      { c2Target with x := (⟨-1/2, 1, -2, 2⟩ : Wall ℚ).maxX + playerRadius, vx := 0 } ∧
    ¬ overlapsWall (resolveWallStep c2Target (⟨-1/2, 1, -2, 2⟩ : Wall ℚ)).x
      (resolveWallStep c2Target (⟨-1/2, 1, -2, 2⟩ : Wall ℚ)).z (⟨-1/2, 1, -2, 2⟩ : Wall ℚ) := by
  have hov : overlapsWall c2Target.x c2Target.z (⟨-1/2, 1, -2, 2⟩ : Wall ℚ) := by
    norm_num [overlapsWall, playerRadius, c2Target]
  have h := c5_wall_resolution c2Target (⟨-1/2, 1, -2, 2⟩ : Wall ℚ) hov
  refine ⟨?_, h.2.2.2.2.2⟩
  rw [h.1, h.2.1 (by norm_num [playerRadius, c2Target])]

theorem clampf_bounds (v half : K) (h : 0 ≤ half) :
    -half ≤ clampf v (-half) half ∧ clampf v (-half) half ≤ half := by
  unfold clampf
  exact ⟨le_max_left _ _, max_le (by linarith) (min_le_left _ _)⟩

theorem worldClampFinish_x (half yaw pitch : K) (q : Player K) :
    (worldClampFinish half yaw pitch q).x = clampf q.x (-half) half := rfl

theorem worldClampFinish_z (half yaw pitch : K) (q : Player K) :
    (worldClampFinish half yaw pitch q).z = clampf q.z (-half) half := rfl

/-- C10: after every call to `integratePlayer` — whatever the input, the
collision pushes, or the prior state — the horizontal position satisfies
`-worldHalfExtent ≤ x, z ≤ worldHalfExtent`, because the final world-bounds
AABB clamp runs after wall and platform resolution. -/
theorem c10_world_bounds {K : Type} [LinearOrderedField K] (ops : FloatOps K)
    (walls : List (Wall K)) (platforms : List (Platform K)) (half : K)
    (p : Player K) (input : InputPacket K) (dt : K) (h : 0 ≤ half) :
    (-half ≤ (integratePlayer ops walls platforms half p input dt).x ∧
      (integratePlayer ops walls platforms half p input dt).x ≤ half) ∧
    (-half ≤ (integratePlayer ops walls platforms half p input dt).z ∧
      (integratePlayer ops walls platforms half p input dt).z ≤ half) := by
  simp only [integratePlayer, worldClampFinish_x, worldClampFinish_z]
  exact ⟨clampf_bounds _ _ h, clampf_bounds _ _ h⟩

theorem c10_world_bounds_witness :
    ((0 : ℝ) ≤ 24) ∧
    (-(24 : ℝ) ≤ (integratePlayer realOps (serverWalls 24) serverPlatforms 24 c1State
        c1Cmd (1 / 60)).x ∧
      (integratePlayer realOps (serverWalls 24) serverPlatforms 24 c1State
        c1Cmd (1 / 60)).x ≤ 24) ∧
    (-(24 : ℝ) ≤ (integratePlayer realOps (serverWalls 24) serverPlatforms 24 c1State
        c1Cmd (1 / 60)).z ∧
      (integratePlayer realOps (serverWalls 24) serverPlatforms 24 c1State
        c1Cmd (1 / 60)).z ≤ 24) := by
  have h := c10_world_bounds realOps (serverWalls 24) serverPlatforms 24 c1State c1Cmd
    (1 / 60) (by norm_num)
  exact ⟨by norm_num, h.1, h.2⟩

/-! ## Theorems: the velocity pipeline on `ℝ` -/

theorem frictionStep_eq (vx vz : ℝ) :
    frictionStep Real.sqrt vx vz (1 / 60) =
      ((1 - 8 * (1 / 60)) * vx, (1 - 8 * (1 / 60)) * vz) := by
  simp only [frictionStep]
  split_ifs with hpos hne
  · have hs0 : Real.sqrt (vx * vx + vz * vz) ≠ 0 := ne_of_gt hpos
    have h1 : max 0 (Real.sqrt (vx * vx + vz * vz) -
        Real.sqrt (vx * vx + vz * vz) * 8 * (1 / 60)) =
        Real.sqrt (vx * vx + vz * vz) * (13 / 15) := by
      rw [max_eq_right (by linarith)]
      ring
    rw [h1]
    refine Prod.ext ?_ ?_ <;> · dsimp only; field_simp; ring
  · exfalso
    apply hne
    rw [max_eq_right (by linarith)]
    have : Real.sqrt (vx * vx + vz * vz) - Real.sqrt (vx * vx + vz * vz) * 8 * (1 / 60) ≠
        Real.sqrt (vx * vx + vz * vz) := by
      intro hcontra
      nlinarith
    exact this
  · have hs0 : Real.sqrt (vx * vx + vz * vz) = 0 :=
      le_antisymm (not_lt.mp hpos) (Real.sqrt_nonneg _)
    have harg : vx * vx + vz * vz = 0 := by
      have hle := Real.sqrt_eq_zero'.mp hs0
      nlinarith [mul_self_nonneg vx, mul_self_nonneg vz]
    have hvx : vx = 0 := by
      have h1 : vx * vx = 0 := by nlinarith [mul_self_nonneg vx, mul_self_nonneg vz]
      exact mul_self_eq_zero.mp h1
    have hvz : vz = 0 := by
      have h1 : vz * vz = 0 := by nlinarith [mul_self_nonneg vx, mul_self_nonneg vz]
      exact mul_self_eq_zero.mp h1
    rw [hvx, hvz]
    norm_num

theorem clampStep_speed_le (vx vz : ℝ) :
    Real.sqrt ((clampStep Real.sqrt vx vz).1 * (clampStep Real.sqrt vx vz).1 +
      (clampStep Real.sqrt vx vz).2 * (clampStep Real.sqrt vx vz).2) ≤ 12 := by
  simp only [clampStep]
  split_ifs with hgt
  · dsimp only
    have hs0 : (0 : ℝ) < Real.sqrt (vx * vx + vz * vz) := lt_trans (by norm_num) hgt
    have harg : vx * (12 / Real.sqrt (vx * vx + vz * vz)) *
        (vx * (12 / Real.sqrt (vx * vx + vz * vz))) +
        vz * (12 / Real.sqrt (vx * vx + vz * vz)) *
        (vz * (12 / Real.sqrt (vx * vx + vz * vz))) =
        (12 / Real.sqrt (vx * vx + vz * vz)) ^ 2 * (vx * vx + vz * vz) := by
      ring
    rw [harg, Real.sqrt_mul (by positivity), Real.sqrt_sq (by positivity)]
    rw [div_mul_cancel₀ _ (ne_of_gt hs0)]
  · dsimp only
    exact le_of_not_lt hgt

theorem normalizeDir_unit (v : ℝ × ℝ) (h : Real.sqrt (v.1 * v.1 + v.2 * v.2) > 1 / 10000) :
    Real.sqrt ((normalizeDir Real.sqrt v).1 * (normalizeDir Real.sqrt v).1 +
      (normalizeDir Real.sqrt v).2 * (normalizeDir Real.sqrt v).2) = 1 := by
  simp only [normalizeDir]
  rw [if_pos h]
  dsimp only
  have hs0 : (0 : ℝ) < Real.sqrt (v.1 * v.1 + v.2 * v.2) := lt_trans (by norm_num) h
  have hsum : (0 : ℝ) < v.1 * v.1 + v.2 * v.2 := Real.sqrt_pos.mp hs0
  have hsq : Real.sqrt (v.1 * v.1 + v.2 * v.2) * Real.sqrt (v.1 * v.1 + v.2 * v.2) =
      v.1 * v.1 + v.2 * v.2 := Real.mul_self_sqrt (le_of_lt hsum)
  have harg : v.1 / Real.sqrt (v.1 * v.1 + v.2 * v.2) *
      (v.1 / Real.sqrt (v.1 * v.1 + v.2 * v.2)) +
      v.2 / Real.sqrt (v.1 * v.1 + v.2 * v.2) *
      (v.2 / Real.sqrt (v.1 * v.1 + v.2 * v.2)) =
      (v.1 * v.1 + v.2 * v.2) /
        (Real.sqrt (v.1 * v.1 + v.2 * v.2) * Real.sqrt (v.1 * v.1 + v.2 * v.2)) := by
    ring
  rw [harg, hsq, div_self (ne_of_gt hsum), Real.sqrt_one]

/-- C6: `integratePlayer` updates horizontal velocity in the order
accelerate → friction → clamp — with no geometry in the way the final
horizontal velocity is literally the three-stage composition — where the
acceleration adds `wishDir * 50 * dt` with a unit wish direction whenever the
`len > 1e-4` guard passes, the friction at `dt = 1/60` is the proportional
decay `v ↦ (1 - 8·dt)·v`, the clamp stage leaves horizontal speed at most 12,
and `command.yaw`/`pitch` are stored verbatim as the new orientation. -/
theorem c6_velocity_pipeline :
    (∀ (walls : List (Wall ℝ)) (platforms : List (Platform ℝ)) (half : ℝ) (p : Player ℝ)
        (input : InputPacket ℝ) (dt : ℝ),
      (integratePlayer realOps walls platforms half p input dt).yaw = input.yaw ∧
      (integratePlayer realOps walls platforms half p input dt).pitch = input.pitch) ∧
    (∀ (half : ℝ) (p : Player ℝ) (input : InputPacket ℝ) (dt : ℝ),
      (integratePlayer realOps [] [] half p input dt).vx =
        (clampStep Real.sqrt
          (frictionStep Real.sqrt
            (accelStep p.vx p.vz (wishDirection realOps input.yaw input.moveX input.moveZ).1
              (wishDirection realOps input.yaw input.moveX input.moveZ).2 dt).1
            (accelStep p.vx p.vz (wishDirection realOps input.yaw input.moveX input.moveZ).1
              (wishDirection realOps input.yaw input.moveX input.moveZ).2 dt).2 dt).1
          (frictionStep Real.sqrt
            (accelStep p.vx p.vz (wishDirection realOps input.yaw input.moveX input.moveZ).1
              (wishDirection realOps input.yaw input.moveX input.moveZ).2 dt).1
            (accelStep p.vx p.vz (wishDirection realOps input.yaw input.moveX input.moveZ).1
              (wishDirection realOps input.yaw input.moveX input.moveZ).2 dt).2 dt).2).1 ∧
      (integratePlayer realOps [] [] half p input dt).vz =
        (clampStep Real.sqrt
          (frictionStep Real.sqrt
            (accelStep p.vx p.vz (wishDirection realOps input.yaw input.moveX input.moveZ).1
              (wishDirection realOps input.yaw input.moveX input.moveZ).2 dt).1
            (accelStep p.vx p.vz (wishDirection realOps input.yaw input.moveX input.moveZ).1
              (wishDirection realOps input.yaw input.moveX input.moveZ).2 dt).2 dt).1
          (frictionStep Real.sqrt
            (accelStep p.vx p.vz (wishDirection realOps input.yaw input.moveX input.moveZ).1
              (wishDirection realOps input.yaw input.moveX input.moveZ).2 dt).1
            (accelStep p.vx p.vz (wishDirection realOps input.yaw input.moveX input.moveZ).1
              (wishDirection realOps input.yaw input.moveX input.moveZ).2 dt).2 dt).2).2) ∧
    (∀ v : ℝ × ℝ, Real.sqrt (v.1 * v.1 + v.2 * v.2) > 1 / 10000 →
      Real.sqrt ((normalizeDir Real.sqrt v).1 * (normalizeDir Real.sqrt v).1 +
        (normalizeDir Real.sqrt v).2 * (normalizeDir Real.sqrt v).2) = 1) ∧
    (∀ vx vz dx dz dt : ℝ, accelStep vx vz dx dz dt = (vx + dx * 50 * dt, vz + dz * 50 * dt)) ∧
    (∀ vx vz : ℝ, frictionStep Real.sqrt vx vz (1 / 60) =
      ((1 - 8 * (1 / 60)) * vx, (1 - 8 * (1 / 60)) * vz)) ∧
    (∀ vx vz : ℝ, Real.sqrt ((clampStep Real.sqrt vx vz).1 * (clampStep Real.sqrt vx vz).1 +
      (clampStep Real.sqrt vx vz).2 * (clampStep Real.sqrt vx vz).2) ≤ 12) :=
  ⟨fun _ _ _ _ _ _ => ⟨rfl, rfl⟩,
   fun _ _ _ _ => ⟨rfl, rfl⟩,
   fun v h => normalizeDir_unit v h,
   fun _ _ _ _ _ => rfl,
   fun vx vz => frictionStep_eq vx vz,
   fun vx vz => clampStep_speed_le vx vz⟩

theorem c6_velocity_pipeline_witness :
    Real.sqrt ((1 : ℝ) * 1 + 0 * 0) > 1 / 10000 ∧
    Real.sqrt ((normalizeDir Real.sqrt ((1 : ℝ), 0)).1 * (normalizeDir Real.sqrt ((1 : ℝ), 0)).1 +
      (normalizeDir Real.sqrt ((1 : ℝ), 0)).2 * (normalizeDir Real.sqrt ((1 : ℝ), 0)).2) = 1 := by
  have hgt : Real.sqrt ((1 : ℝ) * 1 + 0 * 0) > 1 / 10000 := by
    rw [show ((1 : ℝ) * 1 + 0 * 0) = 1 by norm_num, Real.sqrt_one]
    norm_num
  exact ⟨hgt, c6_velocity_pipeline.2.2.1 ((1 : ℝ), 0) hgt⟩

/-- C1: the server as started by server/src/index.ts runs `setupMap` with
`worldHalfExtent = 14`, while the client predictor hard-codes
`WORLD_HALF = 24`; the integration routines are the same algorithm, but the
wall geometry and the arena clamp differ.  Concretely: a player resting at
`x = 13.5, z = 0` who sends one zero-movement command is pushed to `x = 14`
by the server (east perimeter wall of the 14-arena plus the half-extent
clamp) while the client predictor leaves it at `x = 13.5` — a 0.5-unit
divergence far beyond floating-point tolerance, so speculative-then-replay
cannot match the server's result. -/
theorem c1_client_server_divergence :
    (integratePlayer realOps (serverWalls 14) serverPlatforms 14 c1State c1Cmd
      (1 / 60)).x = 14 ∧
    (clientApplyCommand realOps c1State c1Cmd (1 / 60)).x = 27 / 2 := by
  constructor
  · norm_num [integratePlayer, c1State, c1Cmd, wishDirection, rawWishDir, normalizeDir,
      accelStep, frictionStep, clampStep, realOps, Real.sqrt_zero, resolveWalls,
      resolveWallStep, overlapsWall, playerRadius, serverWalls, serverPlatforms,
      resolvePlatforms, resolvePlatformStep, worldClampFinish, clampf, min_def, max_def]
  · norm_num [clientApplyCommand, c1State, c1Cmd, wishDirection, rawWishDir, normalizeDir,
      accelStep, frictionStep, clampStep, realOps, Real.sqrt_zero, resolveWalls,
      resolveWallStep, overlapsWall, playerRadius, clientWalls, clientWorldHalf,
      clientPlatforms, clientResolvePlatforms, clientResolvePlatformStep, clampf,
      min_def, max_def]

/-- C9: a command for an existing, inactive entity whose `respawnTick` has not
been reached updates only `lastSeq` and `lastInputTick`: position, velocity,
health, orientation, grounded flag and `lastFireTick` are unchanged, no
movement is integrated, and no shot is resolved against any target. -/
theorem c9_inactive_passthrough {K : Type} [LinearOrderedField K] [FloorRing K]
    (ops : FloatOps K) (walls : List (Wall K)) (platforms : List (Platform K))
    (half dt : K) (spawnPos : K × K) (hits : List (List (Option K)))
    (p : Player K) (others : List (Player K)) (packet : InputPacket K) (tick : ℕ)
    (hact : p.active = false) (htick : tick < p.respawnTick) :
    processInput ops walls platforms half dt spawnPos hits p others packet tick =
      ({ p with lastSeq := packet.seq, lastInputTick := tick }, others) := by
  have h1 : ¬ (p.active = false ∧ p.respawnTick ≤ tick) := by
    rintro ⟨_, hle⟩
    omega
  simp only [processInput]
  rw [if_neg h1, if_pos hact]

theorem c9_inactive_passthrough_witness :
    processInput zeroOps [] [] 14 (1 / 60) (0, 0) [] c9Player [c9Other] c9Packet 100 =
      ({ c9Player with lastSeq := 11, lastInputTick := 100 }, [c9Other]) :=
  c9_inactive_passthrough zeroOps [] [] 14 (1 / 60) (0, 0) [] c9Player [c9Other]
    c9Packet 100 (by decide) (by decide)

end Burstfire
